import Mathlib

/-!
# PlantLamp

A verification development for `OpenXMain/PlantLamp.cpp`: a lamp driven through a pin of an
MCP23X17 GPIO expander.  The member functions are embedded as functions on the object
contents (explicit state passing: each takes the contents of `*this` and returns the new
contents).  The expander driver class `Adafruit_MCP23X17` belongs to an external library;
it is a type parameter `Mcp`, and its copy assignment is the copy of a value.
-/

set_option linter.dupNamespace false

/-- Arduino `byte`: an unsigned 8-bit value, 0..255. The constructor receives its pin
argument at this type, so any conversion has already happened at the call site. -/
abbrev byte : Type := Fin 256

/-- Modelled from the spec: the class declaration (`PlantLamp.h`) is not among the sources.
The fields are the three that the member functions in `PlantLamp.cpp` assign
(`this->pin`, `this->mcp`, `state`), which are also the three of the spec's data model:
the pin identifier, the expander driver held by value, and the cached on/off state. -/
structure PlantLamp (Mcp : Type) where
  pin : byte
  mcp : Mcp
  state : Bool
deriving DecidableEq, Repr

/-- Source: `void PlantLamp::off() { state = false; }` -/
def PlantLamp.off {Mcp : Type} (self : PlantLamp Mcp) : PlantLamp Mcp :=
  { self with state := false }

/-- Source: `void PlantLamp::on() { state = true; }` -/
def PlantLamp.on {Mcp : Type} (self : PlantLamp Mcp) : PlantLamp Mcp :=
  { self with state := true }

/-- Source: `void PlantLamp::init() { off(); }` -/
def PlantLamp.init {Mcp : Type} (self : PlantLamp Mcp) : PlantLamp Mcp :=
  self.off

/-- One call of a state-changing member function by a client of the object. -/
inductive Call where
  | on
  | off
deriving DecidableEq, Repr

/-- The effect of one client call on the object contents. -/
def PlantLamp.call {Mcp : Type} (self : PlantLamp Mcp) : Call → PlantLamp Mcp
  | Call.on => self.on
  | Call.off => self.off

/-- The effect of a finite sequence of client calls, performed left to right. -/
def PlantLamp.run {Mcp : Type} (self : PlantLamp Mcp) (cs : List Call) : PlantLamp Mcp :=
  cs.foldl PlantLamp.call self

/-- Source: `PlantLamp::PlantLamp(byte pin, Adafruit_MCP23X17 &mcp)`.

`self` is the contents of the object when the constructor body starts: nothing in the source
initialises the members before the body, so it is arbitrary.  The driver is passed by
reference, so the function also returns the caller's driver object as it is when the
constructor returns; the body only reads it (as the source of the copy assignment
`this->mcp = mcp`). -/
def PlantLamp.PlantLamp {Mcp : Type} (self : PlantLamp Mcp) (pin : byte) (mcp : Mcp) :
    PlantLamp Mcp × Mcp :=
  let s1 := { self with pin := pin }
  let s2 := { s1 with mcp := mcp }
  let s3 := s2.init
  (s3, mcp)

/-- An object store: the contents of the `PlantLamp` object located at each address.
Distinct objects of the program are objects at distinct addresses. -/
abbrev Store (Mcp : Type) : Type := Nat → PlantLamp Mcp

/-- Run the constructor on the object at address `addr`; the other objects are not
touched.  Returns the store together with the caller's driver object. -/
def Store.construct {Mcp : Type} (s : Store Mcp) (addr : Nat) (pin : byte) (mcp : Mcp) :
    Store Mcp × Mcp :=
  let r := PlantLamp.PlantLamp (s addr) pin mcp
  (Function.update s addr r.1, r.2)

/-- Call `on()` or `off()` on the object at address `addr`: the member functions write
through `this` only. -/
def Store.call {Mcp : Type} (s : Store Mcp) (addr : Nat) (c : Call) : Store Mcp :=
  Function.update s addr ((s addr).call c)

/-- Two objects constructed one after the other, at addresses `i` and `j`. -/
def Store.constructTwo {Mcp : Type} (s : Store Mcp) (i j : Nat) (p q : byte) (d e : Mcp) :
    Store Mcp :=
  (Store.construct (Store.construct s i p d).1 j q e).1

/-- A program run over the store: a finite sequence of calls, each addressed to the object
at the given address, performed left to right. -/
def Store.runCalls {Mcp : Type} (s : Store Mcp) (ops : List (Nat × Call)) : Store Mcp :=
  ops.foldl (fun st op => Store.call st op.1 op.2) s

/-- The calls of a program run that are addressed to the object at address `k`, in order. -/
def callsAt (ops : List (Nat × Call)) (k : Nat) : List Call :=
  (ops.filter (fun op => op.1 = k)).map Prod.snd

/-- A sample store for concrete evaluation: the object at address 1 is a lamp on pin 5 with
driver 20 that is ON, every other object is a lamp on pin 9 with driver 0 that is OFF. -/
def sampleStore : Store Nat :=
  fun k => if k = 1 then ⟨5, 20, true⟩ else ⟨9, 0, false⟩

/-! ## Auxiliary lemmas -/

@[simp] theorem lamp_call_pin {Mcp : Type} (a : PlantLamp Mcp) (c : Call) :
    (a.call c).pin = a.pin := by
  cases c <;> rfl

@[simp] theorem lamp_call_mcp {Mcp : Type} (a : PlantLamp Mcp) (c : Call) :
    (a.call c).mcp = a.mcp := by
  cases c <;> rfl

theorem lamp_call_state {Mcp : Type} (a : PlantLamp Mcp) (c : Call) :
    (a.call c).state = decide (c = Call.on) := by
  cases c <;> rfl

@[simp] theorem lamp_run_nil {Mcp : Type} (a : PlantLamp Mcp) : a.run [] = a := rfl

@[simp] theorem lamp_run_cons {Mcp : Type} (a : PlantLamp Mcp) (c : Call)
    (cs : List Call) : a.run (c :: cs) = (a.call c).run cs := rfl

theorem lamp_run_append {Mcp : Type} (a : PlantLamp Mcp) (cs ds : List Call) :
    a.run (cs ++ ds) = (a.run cs).run ds := by
  simp [PlantLamp.run, List.foldl_append]

theorem lamp_run_pin {Mcp : Type} (cs : List Call) :
    ∀ a : PlantLamp Mcp, (a.run cs).pin = a.pin := by
  induction cs with
  | nil => intro a; rfl
  | cons c cs ih => intro a; rw [lamp_run_cons, ih, lamp_call_pin]

theorem lamp_run_mcp {Mcp : Type} (cs : List Call) :
    ∀ a : PlantLamp Mcp, (a.run cs).mcp = a.mcp := by
  induction cs with
  | nil => intro a; rfl
  | cons c cs ih => intro a; rw [lamp_run_cons, ih, lamp_call_mcp]

theorem lamp_run_snoc_state {Mcp : Type} (a : PlantLamp Mcp) (cs : List Call)
    (c : Call) : (a.run (cs ++ [c])).state = decide (c = Call.on) := by
  rw [lamp_run_append, lamp_run_cons, lamp_run_nil, lamp_call_state]

theorem lamp_ctor_eq {Mcp : Type} (raw : PlantLamp Mcp) (pin : byte) (d : Mcp) :
    PlantLamp.PlantLamp raw pin d = (⟨pin, d, false⟩, d) := rfl

theorem store_call_same {Mcp : Type} (s : Store Mcp) (i : Nat) (c : Call) :
    Store.call s i c i = (s i).call c := by
  simp [Store.call]

theorem store_call_other {Mcp : Type} (s : Store Mcp) (i j : Nat) (hij : i ≠ j) (c : Call) :
    Store.call s i c j = s j := by
  have hji : j ≠ i := fun h => hij h.symm
  simp [Store.call, Function.update, hji]

theorem lamp_call_eq {Mcp : Type} (a : PlantLamp Mcp) (c : Call) :
    a.call c = ⟨a.pin, a.mcp, decide (c = Call.on)⟩ := by
  cases c <;> rfl

theorem store_construct_same {Mcp : Type} (s : Store Mcp) (i : Nat) (p : byte) (d : Mcp) :
    (Store.construct s i p d).1 i = ⟨p, d, false⟩ := by
  simp [Store.construct, lamp_ctor_eq]

theorem store_construct_other {Mcp : Type} (s : Store Mcp) (i j : Nat) (hij : i ≠ j)
    (p : byte) (d : Mcp) : (Store.construct s i p d).1 j = s j := by
  have hji : j ≠ i := fun h => hij h.symm
  simp [Store.construct, Function.update, hji]

theorem store_runCalls_at {Mcp : Type} (ops : List (Nat × Call)) (k : Nat) :
    ∀ s : Store Mcp, Store.runCalls s ops k = (s k).run (callsAt ops k) := by
  induction ops with
  | nil => intro s; rfl
  | cons op ops ih =>
    intro s
    have hstep : Store.runCalls s (op :: ops) = Store.runCalls (Store.call s op.1 op.2) ops :=
      rfl
    rw [hstep, ih]
    by_cases h : op.1 = k
    · have hc : callsAt (op :: ops) k = op.2 :: callsAt ops k := by
        simp [callsAt, List.filter_cons, h]
      rw [hc, lamp_run_cons, ← h, store_call_same]
    · have hc : callsAt (op :: ops) k = callsAt ops k := by
        simp [callsAt, List.filter_cons, h]
      rw [hc, store_call_other s op.1 k h]

/-! ## Construction -/

/-- C1: the actuator returned by the constructor has cached state false (OFF), for every
pin, every driver and every prior contents of the object (in particular whatever the state
field held before `init()` ran); hence any two constructions agree on the state, and
Scenario A (pin 3) gives OFF. -/
theorem constructed_state_off {Mcp : Type} (raw raw2 : PlantLamp Mcp) (pin pin2 : byte)
    (d d2 : Mcp) :
    (PlantLamp.PlantLamp raw pin d).1.state = false ∧
    (PlantLamp.PlantLamp raw pin d).1.state = (PlantLamp.PlantLamp raw2 pin2 d2).1.state ∧
    (PlantLamp.PlantLamp raw 3 d).1.state = false :=
  ⟨rfl, rfl, rfl⟩

/-- C8: construction stores its arguments: the pin field of the new actuator is the supplied
pin, its stored driver is the supplied driver as it was at the call, and the supplied driver
object is the same after the constructor as before. -/
theorem constructor_stores_arguments {Mcp : Type} (raw : PlantLamp Mcp) (pin : byte)
    (d : Mcp) :
    (PlantLamp.PlantLamp raw pin d).1.pin = pin ∧
    (PlantLamp.PlantLamp raw pin d).1.mcp = d ∧
    (PlantLamp.PlantLamp raw pin d).2 = d :=
  ⟨rfl, rfl, rfl⟩

/-! ## The transitions -/

/-- C2: after `on()` the cached state is true (ON) whatever it was before; in particular
constructing with pin 3 and then calling `on()` gives ON (Scenario B). -/
theorem on_sets_state_true {Mcp : Type} (a raw : PlantLamp Mcp) (d : Mcp) :
    a.on.state = true ∧ (PlantLamp.PlantLamp raw 3 d).1.on.state = true :=
  ⟨rfl, rfl⟩

/-- C3: after `off()` the cached state is false (OFF) whatever it was before. -/
theorem off_sets_state_false {Mcp : Type} (a : PlantLamp Mcp) :
    a.off.state = false :=
  rfl

/-- C4: from any starting state, `on()` then `off()` ends OFF and `off()` then `on()` ends
ON; and two runs of the same call sequence from equal actuators end in equal actuators. -/
theorem on_off_sequences {Mcp : Type} (a b : PlantLamp Mcp) (cs : List Call) (h : a = b) :
    a.on.off.state = false ∧ a.off.on.state = true ∧
    (a.run [Call.on, Call.off]).state = false ∧ (a.run [Call.off, Call.on]).state = true ∧
    a.run cs = b.run cs := by
  subst h
  exact ⟨rfl, rfl, rfl, rfl, rfl⟩

/-- Witness for C4 at the actuator with pin 3, driver 7, state ON, and the calls
off, on, off. -/
theorem on_off_sequences_witness :
    ((⟨3, 7, true⟩ : PlantLamp Nat) = ⟨3, 7, true⟩) ∧
    (⟨3, 7, true⟩ : PlantLamp Nat).on.off.state = false ∧
    (⟨3, 7, true⟩ : PlantLamp Nat).off.on.state = true ∧
    ((⟨3, 7, true⟩ : PlantLamp Nat).run [Call.on, Call.off]).state = false ∧
    ((⟨3, 7, true⟩ : PlantLamp Nat).run [Call.off, Call.on]).state = true ∧
    (⟨3, 7, true⟩ : PlantLamp Nat).run [Call.off, Call.on, Call.off] =
      (⟨3, 7, true⟩ : PlantLamp Nat).run [Call.off, Call.on, Call.off] :=
  ⟨rfl, on_off_sequences ⟨3, 7, true⟩ ⟨3, 7, true⟩ [Call.off, Call.on, Call.off] rfl⟩

/-- C5: `on()` and `off()` are idempotent on the whole actuator (pin, stored driver and
state), `on()` on an actuator that is already ON returns it unchanged, and `off()` on an
actuator that is already OFF returns it unchanged. -/
theorem on_off_idempotent {Mcp : Type} (a : PlantLamp Mcp) :
    a.on.on = a.on ∧ a.off.off = a.off ∧
    (a.state = true → a.on = a) ∧ (a.state = false → a.off = a) := by
  refine ⟨rfl, rfl, ?_, ?_⟩
  · intro h
    cases a
    simp only [PlantLamp.on] at h ⊢
    subst h
    rfl
  · intro h
    cases a
    simp only [PlantLamp.off] at h ⊢
    subst h
    rfl

/-- Witness for C5: the no-op parts at an actuator that is ON and at one that is OFF. -/
theorem on_off_idempotent_witness :
    ((⟨3, 7, true⟩ : PlantLamp Nat).state = true ∧
      (⟨3, 7, true⟩ : PlantLamp Nat).on = ⟨3, 7, true⟩) ∧
    ((⟨3, 7, false⟩ : PlantLamp Nat).state = false ∧
      (⟨3, 7, false⟩ : PlantLamp Nat).off = ⟨3, 7, false⟩) :=
  ⟨⟨rfl, (on_off_idempotent (⟨3, 7, true⟩ : PlantLamp Nat)).2.2.1 rfl⟩,
   ⟨rfl, (on_off_idempotent (⟨3, 7, false⟩ : PlantLamp Nat)).2.2.2 rfl⟩⟩

/-- C7: `on()` and `off()` change only the cached state: the pin field and the stored driver
are what they were before the call, also after any sequence of calls. -/
theorem on_off_frame {Mcp : Type} (a : PlantLamp Mcp) (cs : List Call) :
    a.on.pin = a.pin ∧ a.on.mcp = a.mcp ∧ a.off.pin = a.pin ∧ a.off.mcp = a.mcp ∧
    (a.run cs).pin = a.pin ∧ (a.run cs).mcp = a.mcp :=
  ⟨rfl, rfl, rfl, rfl, lamp_run_pin cs a, lamp_run_mcp cs a⟩

/-! ## Separate objects -/

/-- C6: two actuators are independent. In any store, whatever the contents of its objects,
a call of `on()` or `off()` on the object at one address acts on that object (its state
becomes that of the call, its pin and driver stay) and leaves the whole contents of the
object at any other address (pin, stored driver and cached state) unchanged, and vice versa;
constructing one object leaves the other unchanged; in particular this holds for two
actuators built by separate constructor calls with any pins, equal or not, and any drivers,
right after construction and after any program run of calls addressed to either of them,
where the contents of each object are determined by the calls addressed to it alone. -/
theorem actuators_independent {Mcp : Type} (s : Store Mcp) (i j : Nat) (hij : i ≠ j)
    (p q : byte) (d e : Mcp) (c : Call) (ops : List (Nat × Call)) :
    Store.constructTwo s i j p q d e i = ⟨p, d, false⟩ ∧
    Store.constructTwo s i j p q d e j = ⟨q, e, false⟩ ∧
    Store.call (Store.constructTwo s i j p q d e) i c i = (⟨p, d, false⟩ : PlantLamp Mcp).call c ∧
    Store.call (Store.constructTwo s i j p q d e) i c j = ⟨q, e, false⟩ ∧
    Store.call (Store.constructTwo s i j p q d e) j c j = (⟨q, e, false⟩ : PlantLamp Mcp).call c ∧
    Store.call (Store.constructTwo s i j p q d e) j c i = ⟨p, d, false⟩ ∧
    Store.call s i c j = s j ∧
    Store.call s j c i = s i ∧
    Store.call s i c i = ⟨(s i).pin, (s i).mcp, decide (c = Call.on)⟩ ∧
    Store.call s j c j = ⟨(s j).pin, (s j).mcp, decide (c = Call.on)⟩ ∧
    (Store.construct s i p d).1 j = s j ∧
    (Store.construct s j q e).1 i = s i ∧
    Store.call (Store.runCalls (Store.constructTwo s i j p q d e) ops) i c j =
      (⟨q, e, false⟩ : PlantLamp Mcp).run (callsAt ops j) ∧
    Store.call (Store.runCalls (Store.constructTwo s i j p q d e) ops) j c i =
      (⟨p, d, false⟩ : PlantLamp Mcp).run (callsAt ops i) ∧
    Store.call (Store.runCalls (Store.constructTwo s i j p q d e) ops) i c i =
      ⟨p, d, decide (c = Call.on)⟩ ∧
    Store.call (Store.runCalls (Store.constructTwo s i j p q d e) ops) j c j =
      ⟨q, e, decide (c = Call.on)⟩ := by
  have hji : j ≠ i := fun h => hij h.symm
  have hi : Store.constructTwo s i j p q d e i = ⟨p, d, false⟩ := by
    unfold Store.constructTwo
    rw [store_construct_other _ j i hji, store_construct_same]
  have hj : Store.constructTwo s i j p q d e j = ⟨q, e, false⟩ := by
    unfold Store.constructTwo
    rw [store_construct_same]
  have hri : Store.runCalls (Store.constructTwo s i j p q d e) ops i =
      (⟨p, d, false⟩ : PlantLamp Mcp).run (callsAt ops i) := by
    rw [store_runCalls_at, hi]
  have hrj : Store.runCalls (Store.constructTwo s i j p q d e) ops j =
      (⟨q, e, false⟩ : PlantLamp Mcp).run (callsAt ops j) := by
    rw [store_runCalls_at, hj]
  refine ⟨hi, hj, ?_, ?_, ?_, ?_, ?_, ?_, ?_, ?_, ?_, ?_, ?_, ?_, ?_, ?_⟩
  · rw [store_call_same, hi]
  · rw [store_call_other _ i j hij, hj]
  · rw [store_call_same, hj]
  · rw [store_call_other _ j i hji, hi]
  · exact store_call_other s i j hij c
  · exact store_call_other s j i hji c
  · rw [store_call_same, lamp_call_eq]
  · rw [store_call_same, lamp_call_eq]
  · exact store_construct_other s i j hij p d
  · exact store_construct_other s j i hji q e
  · rw [store_call_other _ i j hij, hrj]
  · rw [store_call_other _ j i hji, hri]
  · rw [store_call_same, lamp_call_eq, hri, lamp_run_pin, lamp_run_mcp]
  · rw [store_call_same, lamp_call_eq, hrj, lamp_run_pin, lamp_run_mcp]

/-- Witness for C6, at addresses 0 and 1 of the sample store, whose lamp at address 1 is ON.
Switching lamp 0 on or off leaves lamp 1 ON with its pin 5 and driver 20, and acts on
lamp 0. Two lamps constructed on the same pin 3 with drivers 10 and 20 start OFF; after
the run on(0), on(1), off(0), on(0) a further `off()` on lamp 0 leaves lamp 1 ON and
switches lamp 0 off, and a further `off()` on lamp 1 leaves lamp 0 ON. -/
theorem actuators_independent_witness :
    (0 : Nat) ≠ 1 ∧
    Store.call sampleStore 0 Call.off 1 = ⟨5, 20, true⟩ ∧
    Store.call sampleStore 0 Call.on 1 = ⟨5, 20, true⟩ ∧
    Store.call sampleStore 0 Call.on 0 = ⟨9, 0, true⟩ ∧
    Store.call sampleStore 1 Call.off 1 = ⟨5, 20, false⟩ ∧
    Store.call sampleStore 1 Call.off 0 = ⟨9, 0, false⟩ ∧
    (Store.construct sampleStore 0 3 10).1 1 = ⟨5, 20, true⟩ ∧
    Store.constructTwo sampleStore 0 1 3 3 10 20 0 = ⟨3, 10, false⟩ ∧
    Store.constructTwo sampleStore 0 1 3 3 10 20 1 = ⟨3, 20, false⟩ ∧
    Store.call (Store.constructTwo sampleStore 0 1 3 3 10 20) 0 Call.on 1 = ⟨3, 20, false⟩ ∧
    Store.call (Store.runCalls (Store.constructTwo sampleStore 0 1 3 3 10 20)
      [(0, Call.on), (1, Call.on), (0, Call.off), (0, Call.on)]) 0 Call.off 1
      = ⟨3, 20, true⟩ ∧
    Store.call (Store.runCalls (Store.constructTwo sampleStore 0 1 3 3 10 20)
      [(0, Call.on), (1, Call.on), (0, Call.off), (0, Call.on)]) 0 Call.off 0
      = ⟨3, 10, false⟩ ∧
    Store.call (Store.runCalls (Store.constructTwo sampleStore 0 1 3 3 10 20)
      [(0, Call.on), (1, Call.on), (0, Call.off), (0, Call.on)]) 1 Call.off 0
      = ⟨3, 10, true⟩ :=
  ⟨by decide,
   (actuators_independent sampleStore 0 1 (by decide) 3 3 10 20 Call.off []).2.2.2.2.2.2.1,
   (actuators_independent sampleStore 0 1 (by decide) 3 3 10 20 Call.on []).2.2.2.2.2.2.1,
   (actuators_independent sampleStore 0 1 (by decide) 3 3 10 20 Call.on
     []).2.2.2.2.2.2.2.2.1,
   (actuators_independent sampleStore 0 1 (by decide) 3 3 10 20 Call.off
     []).2.2.2.2.2.2.2.2.2.1,
   (actuators_independent sampleStore 0 1 (by decide) 3 3 10 20 Call.off
     []).2.2.2.2.2.2.2.1,
   (actuators_independent sampleStore 0 1 (by decide) 3 3 10 20 Call.off
     []).2.2.2.2.2.2.2.2.2.2.1,
   (actuators_independent sampleStore 0 1 (by decide) 3 3 10 20 Call.on []).1,
   (actuators_independent sampleStore 0 1 (by decide) 3 3 10 20 Call.on []).2.1,
   (actuators_independent sampleStore 0 1 (by decide) 3 3 10 20 Call.on []).2.2.2.1,
   (actuators_independent sampleStore 0 1 (by decide) 3 3 10 20 Call.off
     [(0, Call.on), (1, Call.on), (0, Call.off), (0, Call.on)]).2.2.2.2.2.2.2.2.2.2.2.2.1,
   (actuators_independent sampleStore 0 1 (by decide) 3 3 10 20 Call.off
     [(0, Call.on), (1, Call.on), (0, Call.off), (0, Call.on)]).2.2.2.2.2.2.2.2.2.2.2.2.2.2.1,
   (actuators_independent sampleStore 0 1 (by decide) 3 3 10 20 Call.off
     [(0, Call.on), (1, Call.on), (0, Call.off), (0, Call.on)]).2.2.2.2.2.2.2.2.2.2.2.2.2.1⟩

/-! ## Totality -/

/-- C9: construction, `on()` and `off()` have no failure path: for every byte pin and every
driver the constructor returns an actuator, the same way for pins outside the 0..15 range
of the expander (such as 20) as for pins inside it, and `on()` and `off()` return an
actuator from every actuator state, as does every finite sequence of them. -/
theorem operations_total {Mcp : Type} (raw a : PlantLamp Mcp) (pin : byte) (d : Mcp)
    (cs : List Call) :
    (∃ x : PlantLamp Mcp, PlantLamp.PlantLamp raw pin d = (x, d) ∧ x = ⟨pin, d, false⟩) ∧
    (∃ x : PlantLamp Mcp, PlantLamp.PlantLamp raw 20 d = (x, d) ∧ x = ⟨20, d, false⟩ ∧
      16 ≤ x.pin.val) ∧
    (∃ y : PlantLamp Mcp, a.on = y ∧ y = ⟨a.pin, a.mcp, true⟩) ∧
    (∃ y : PlantLamp Mcp, a.off = y ∧ y = ⟨a.pin, a.mcp, false⟩) ∧
    (∃ z : PlantLamp Mcp, a.run cs = z ∧ z.pin = a.pin ∧ z.mcp = a.mcp) :=
  ⟨⟨_, rfl, rfl⟩, ⟨⟨20, d, false⟩, rfl, rfl, show 16 ≤ (20 : byte).val by decide⟩, ⟨_, rfl, rfl⟩, ⟨_, rfl, rfl⟩,
   ⟨_, rfl, lamp_run_pin cs a, lamp_run_mcp cs a⟩⟩

/-! ## Reachable states -/

/-- C10: after any finite sequence of `on()`/`off()` calls on the actuator constructed from
pin `p` and driver `d`, the pin is `p`, the stored driver is `d`, and the cached state is
true exactly when the sequence is non-empty and its last call is `on()`; the actuators
reachable from the construction are exactly the two with pin `p`, driver `d` and state
OFF or ON, which differ; and the result of a sequence depends on its last call only. -/
theorem reachable_states {Mcp : Type} (raw : PlantLamp Mcp) (p : byte) (d : Mcp)
    (cs : List Call) :
    ((PlantLamp.PlantLamp raw p d).1.run cs).pin = p ∧
    ((PlantLamp.PlantLamp raw p d).1.run cs).mcp = d ∧
    (((PlantLamp.PlantLamp raw p d).1.run cs).state = true ↔
      cs ≠ [] ∧ cs.getLast? = some Call.on) ∧
    (∀ x : PlantLamp Mcp, (∃ ds, (PlantLamp.PlantLamp raw p d).1.run ds = x) ↔
      x = ⟨p, d, false⟩ ∨ x = ⟨p, d, true⟩) ∧
    (⟨p, d, false⟩ : PlantLamp Mcp) ≠ ⟨p, d, true⟩ ∧
    (∀ (pre pre2 : List Call) (c : Call),
      (PlantLamp.PlantLamp raw p d).1.run (pre ++ [c]) =
        (PlantLamp.PlantLamp raw p d).1.run (pre2 ++ [c])) := by
  have hpin : ∀ ds, ((PlantLamp.PlantLamp raw p d).1.run ds).pin = p := fun ds =>
    lamp_run_pin ds _
  have hmcp : ∀ ds, ((PlantLamp.PlantLamp raw p d).1.run ds).mcp = d := fun ds =>
    lamp_run_mcp ds _
  have hshape : ∀ ds, (PlantLamp.PlantLamp raw p d).1.run ds =
      ⟨p, d, ((PlantLamp.PlantLamp raw p d).1.run ds).state⟩ := by
    intro ds
    have h1 := hpin ds
    have h2 := hmcp ds
    cases h : (PlantLamp.PlantLamp raw p d).1.run ds with
    | mk pp dd st =>
      rw [h] at h1 h2
      simp only at h1 h2
      rw [h1, h2]
  refine ⟨hpin cs, hmcp cs, ?_, ?_, ?_, ?_⟩
  · rcases List.eq_nil_or_concat cs with h | ⟨pre, c, h⟩
    · subst h
      simp [lamp_ctor_eq]
    · subst h
      rw [List.concat_eq_append, lamp_run_snoc_state]
      cases c <;> simp
  · intro x
    constructor
    · rintro ⟨ds, rfl⟩
      rw [hshape ds]
      cases ((PlantLamp.PlantLamp raw p d).1.run ds).state
      · exact Or.inl rfl
      · exact Or.inr rfl
    · rintro (h | h)
      · exact ⟨[], by rw [h]; rfl⟩
      · exact ⟨[Call.on], by rw [h]; rfl⟩
  · intro h
    have := congrArg PlantLamp.state h
    simp at this
  · intro pre pre2 c
    rw [hshape (pre ++ [c]), hshape (pre2 ++ [c]), lamp_run_snoc_state, lamp_run_snoc_state]
